import Mathlib

/-!
Verification of the http-kit body engine and middleware dispatch chain.

The development shallowly embeds the library's core (`src/body/mod.rs`,
`src/body/utils.rs`, `src/middleware.rs`, `src/app.rs`, `src/response.rs`):

* byte buffers (`Bytes`) are `List Nat`;
* an `AsyncBufRead` source is a list of non-empty chunks: `fill_buf`
  exposes the head chunk (or an empty slice at end of input) and, crucially,
  exposes the SAME head chunk again if the caller did not `consume` it;
* a chunk stream is a list of items, each a chunk or a failure;
* asynchronous loops are embedded with explicit fuel, `none` meaning the
  loop did not finish within the given fuel;
* `usize` subtraction is checked: it produces `none` (a panic under debug
  assertions; the value wraps in release builds, which equally is not a
  floor at zero) when the subtrahend exceeds the minuend;
* copy counters record each `extend_from_slice`/`copy_from_slice`
  performed, so that "no intermediate copy" claims are statable.
-/

namespace HttpKit

/-- Byte buffers (`bytes::Bytes`) are modelled as lists of bytes. -/
abbrev Chunk := List Nat

/-- Body error taxonomy (`src/body/error_type.rs`); only the kinds the
claims exercise are distinguished, every other cause is `other`. -/
inductive Error
  | bodyFrozen
  | other (msg : String)
deriving DecidableEq

/-- One item of a chunk stream: a byte chunk or a terminal failure
(`Stream<Item = Result<Bytes, BoxStdError>>`). -/
inductive StreamItem
  | chunk (data : Chunk)
  | err (msg : String)
deriving DecidableEq

/-- The four `BodyInner` variants of `src/body/mod.rs`. -/
inductive BodyInner
  | once (bytes : Chunk)
  | reader (src : List Chunk) (length : Option Nat)
  | stream (items : List StreamItem)
  | freeze
deriving DecidableEq

/-- `Body` owns exactly one `BodyInner`. -/
structure Body where
  inner : BodyInner
deriving DecidableEq

/-- `Body::empty()`. -/
def Body.empty : Body := ⟨.once []⟩

/-- `Body::frozen()`. -/
def Body.frozen : Body := ⟨.freeze⟩

/-- `Body::from_bytes(data)`. -/
def Body.from_bytes (data : Chunk) : Body := ⟨.once data⟩

/-- `Body::from_reader(reader, length)`. -/
def Body.from_reader (src : List Chunk) (length : Option Nat) : Body :=
  ⟨.reader src length⟩

/-- `Body::from_stream(stream)`. -/
def Body.from_stream (items : List StreamItem) : Body := ⟨.stream items⟩

/-- `Body::len()`. -/
def Body.len (b : Body) : Option Nat :=
  match b.inner with
  | .once bytes => some bytes.length
  | _ => none

/-- `Body::is_frozen()`. -/
def Body.is_frozen (b : Body) : Bool :=
  match b.inner with
  | .freeze => true
  | _ => false

/-- `Body::replace(&mut self, body)` = `mem::replace`: the result is
(new state of `self`, returned old value). -/
def Body.replace (self other : Body) : Body × Body := (other, self)

/-- `Body::swap(&mut self, body)`: result is (returned value, new state of
`self`, new state of `body`). Rejects only when `self` is frozen. -/
def Body.swap (self other : Body) : Except Error Unit × Body × Body :=
  if self.is_frozen then (.error .bodyFrozen, self, other)
  else (.ok (), other, self)

/-- `Body::take(&mut self)`: result is (returned value, new state of
`self`). On success the old value is returned and `Frozen` is left behind. -/
def Body.take (self : Body) : Except Error Body × Body :=
  if self.is_frozen then (.error .bodyFrozen, self)
  else (.ok self, Body.frozen)

/-- `Body::freeze(&mut self)`: installs the frozen sentinel, dropping the
old value. -/
def Body.freeze (self : Body) : Body := (self.replace Body.frozen).1

/-- The `BodyInner::Reader` loop of `Body::into_bytes` exactly as written:
`fill_buf`, stop when empty, otherwise `extend_from_slice` and loop — with
NO `consume` call, so the source is left untouched between iterations and
`fill_buf` keeps exposing the same head chunk. Fuel bounds the iteration
count; `none` means the loop did not finish. The result pairs the
accumulated bytes with the number of copies performed. -/
def intoBytesReaderLoop : Nat → List Chunk → Chunk → Nat → Option (Chunk × Nat)
  | 0, _, _, _ => none
  | fuel + 1, src, acc, copies =>
    let data := (src.head?).getD []
    if data.isEmpty then some (acc, copies)
    else intoBytesReaderLoop fuel src (acc ++ data) (copies + 1)

/-- `StreamExt::try_next` over the remaining items: the next chunk (or
`none` at end of sequence) plus the remaining items; a failure item
propagates as an error. -/
def tryNext : List StreamItem → Except Error (Option Chunk × List StreamItem)
  | [] => .ok (none, [])
  | .chunk c :: rest => .ok (some c, rest)
  | .err e :: _ => .error (.other e)

/-- The `while let Some(data) = body.try_next()` drain loop of the
`BodyInner::Stream` branch of `into_bytes`, appending each chunk and
counting copies. -/
def drainAppend : List StreamItem → Chunk → Nat → Except Error (Chunk × Nat)
  | [], acc, copies => .ok (acc, copies)
  | .chunk c :: rest, acc, copies => drainAppend rest (acc ++ c) (copies + 1)
  | .err e :: _, _, _ => .error (.other e)

/-- The `BodyInner::Stream` branch of `Body::into_bytes`: pull the first
chunk (defaulting to empty), pull a second; if the second pull signals end,
return the first chunk directly (zero copies), otherwise copy both held
chunks into a fresh buffer and drain the rest. -/
def intoBytesStream (items : List StreamItem) : Except Error (Chunk × Nat) :=
  match tryNext items with
  | .error e => .error e
  | .ok (firstOpt, s1) =>
    let first := firstOpt.getD []
    match tryNext s1 with
    | .error e => .error e
    | .ok (none, _) => .ok (first, 0)
    | .ok (some second, s2) => drainAppend s2 (first ++ second) 2

/-- `Body::into_bytes(self)`: dispatch on the variant. The fuel only
matters for the `Reader` branch; `none` means the call never returned.
A successful result pairs the bytes with the number of data copies. -/
def Body.into_bytes (fuel : Nat) (b : Body) : Option (Except Error (Chunk × Nat)) :=
  match b.inner with
  | .once bytes => some (.ok (bytes, 0))
  | .reader src _length => (intoBytesReaderLoop fuel src [] 0).map Except.ok
  | .stream items => some (intoBytesStream items)
  | .freeze => some (.error .bodyFrozen)

/-- One step of `<Body as Stream>::poll_next` (the `Poll::Ready` cases):
the yielded item (`none` = end of stream) and the successor state. The
outer `none` marks the `usize` underflow `*length -= data.len()` in the
`Reader` branch, a panic under debug assertions. -/
def pollNext (b : Body) : Option (Option (Except Error Chunk) × Body) :=
  match b.inner with
  | .once bytes =>
    if bytes.isEmpty then some (none, b)
    else some (some (.ok bytes), ⟨.once []⟩)
  | .reader src length =>
    match src with
    | [] => some (none, b)
    | data :: rest =>
      if data.isEmpty then some (none, b)
      else
        match length with
        | some l =>
          if l < data.length then none
          else some (some (.ok data), ⟨.reader rest (some (l - data.length))⟩)
        | none => some (some (.ok data), ⟨.reader rest none⟩)
  | .stream items =>
    match items with
    | [] => some (none, b)
    | .chunk c :: rest => some (some (.ok c), ⟨.stream rest⟩)
    | .err e :: rest => some (some (.error (.other e)), ⟨.stream rest⟩)
  | .freeze => some (some (.error .bodyFrozen), b)

/-- The item yielded by the `(n+1)`-th poll of the body, threading the
state through the first `n` polls. -/
def pollNextN : Nat → Body → Option (Option (Except Error Chunk) × Body)
  | 0, b => pollNext b
  | n + 1, b =>
    match pollNext b with
    | none => none
    | some (_, b2) => pollNextN n b2

/-- Outcome of one `poll_data` call (`src/body/utils.rs`): the returned
`io::Result`, the two mutated fields (`optional_stream`, `buf`), and the
number of `poll_next` calls issued to the underlying sequence. -/
structure PollDataOut where
  result : Except Error Unit
  stream : Option (List StreamItem)
  buf : Chunk
  polls : Nat

/-- The stream-polling part of `poll_data`, entered when the held stream is
present and `buf` is empty: poll the sequence once; skip an empty chunk by
recursing; install a non-empty chunk as the new `buf`; on end of sequence
set the stream field to `none` (drop the reference). -/
def pollDataAux : List StreamItem → PollDataOut
  | [] => ⟨.ok (), none, [], 1⟩
  | .err e :: rest => ⟨.error (.other e), some rest, [], 1⟩
  | .chunk c :: rest =>
    if c.isEmpty then
      let r := pollDataAux rest
      ⟨r.result, r.stream, r.buf, r.polls + 1⟩
    else ⟨.ok (), some rest, c, 1⟩

/-- `poll_data(optional_stream, buf, cx)` of `src/body/utils.rs`: return
immediately (zero polls) when the stream reference was already dropped or
when `buf` still holds data; otherwise pull from the sequence. -/
def poll_data (streamOpt : Option (List StreamItem)) (buf : Chunk) : PollDataOut :=
  match streamOpt with
  | none => ⟨.ok (), none, buf, 0⟩
  | some s =>
    if buf.isEmpty then pollDataAux s
    else ⟨.ok (), some s, buf, 0⟩

/-- HTTP responses: only the fields the claims observe (status code and
body); `Response::empty()` is `Response::new(StatusCode::OK, Body::empty())`. -/
structure Response where
  status : Nat
  body : Body
deriving DecidableEq

/-- `Response::empty()`. -/
def Response.empty : Response := ⟨200, Body.empty⟩

/-- Observable event log threaded through a middleware chain; it stands for
the mutable `Request` the Rust chain passes by `&mut`, in which the test
middlewares record markers. -/
abbrev Trace := List String

/-- Result of running (part of) a chain: the mutated trace and the
`crate::Result<Response>`. -/
abbrev MwResult := Trace × Except String Response

/-- A middleware is its `call_middleware(&self, request, next)`: it gets
the current trace and the continuation for the rest of the chain. -/
abbrev Middleware := Trace → (Trace → MwResult) → MwResult

/-- An endpoint is its `call_endpoint(&self, request)`. -/
abbrev Endpoint := Trace → MwResult

/-- `Next::run(self, request)` (`src/middleware.rs`): split off the first
middleware and hand it the continuation over the rest, or call the terminal
endpoint when no middleware remains. -/
def Next.run : List Middleware → Endpoint → Trace → MwResult
  | [], ep, t => ep t
  | m :: rest, ep, t => m t (Next.run rest ep)

/-- `App`: one endpoint plus the ordered middleware list. -/
structure App where
  middlewares : List Middleware
  endpoint : Endpoint

/-- `App::run(&self, request)`: build one `Next` chain over the full list
and execute it. -/
def App.run (app : App) (t : Trace) : MwResult :=
  Next.run app.middlewares app.endpoint t

/-- A test middleware that appends `tag.pre` before invoking its
continuation and `tag.post` after it returns. -/
def markerMiddleware (tag : String) : Middleware := fun t k =>
  let r := k (t ++ [tag ++ ".pre"])
  (r.1 ++ [tag ++ ".post"], r.2)

/-- A middleware that returns its own response without ever invoking the
continuation. -/
def shortCircuitMiddleware (resp : Response) : Middleware := fun t _ => (t, .ok resp)

/-- `impl Middleware for ()` (`src/middleware.rs`): ignore the request and
the continuation, return `Ok(Response::empty())`. -/
def unitMiddleware : Middleware := fun t _ => (t, .ok Response.empty)

/-- Helper: draining a failure-free stream appends the concatenation of its
chunks in arrival order and performs one copy per chunk. -/
theorem drainAppend_map_chunk (l : List Chunk) (acc : Chunk) (copies : Nat) :
    drainAppend (l.map StreamItem.chunk) acc copies =
      .ok (acc ++ l.flatten, copies + l.length) := by
  induction l generalizing acc copies with
  | nil => simp [drainAppend]
  | cons c rest ih =>
    simp only [List.map_cons, drainAppend, ih, List.flatten_cons]
    rw [List.append_assoc]
    simp [List.length_cons]
    ring

/-- C9: for all byte buffers `b`, `into_bytes(from_bytes(b))` yields exactly
`b`, and the buffered form is returned as-is with zero data copies. -/
theorem from_bytes_into_bytes_roundtrip (fuel : Nat) (b : Chunk) :
    Body.into_bytes fuel (Body.from_bytes b) = some (.ok (b, 0)) := by
  simp [Body.into_bytes, Body.from_bytes]

/-- C8: for every body, `freeze()` followed by `into_bytes()` fails with the
body-consumed condition, and `freeze()` is idempotent: freezing twice leaves
the same frozen state as freezing once (and `freeze` is total, so it never
fails). -/
theorem freeze_then_into_bytes_fails_and_freeze_idempotent (fuel : Nat) (b : Body) :
    Body.into_bytes fuel (Body.freeze b) = some (.error .bodyFrozen) ∧
      Body.freeze (Body.freeze b) = Body.freeze b := by
  exact ⟨rfl, rfl⟩

/-- C1 (divergence witness): the `Reader` loop of `into_bytes` never calls
`consume`, so on a source whose head chunk is the single byte `42` the loop
never terminates, whatever fuel, accumulator, and copy count it starts
from — where the spec requires it to fill/consume until empty and return
the source's bytes. -/
theorem into_bytes_reader_loop_never_terminates (fuel : Nat) (acc : Chunk) (copies : Nat) :
    intoBytesReaderLoop fuel [[42]] acc copies = none := by
  induction fuel generalizing acc copies with
  | zero => rfl
  | succ fuel ih => simpa [intoBytesReaderLoop] using ih (acc ++ [42]) (copies + 1)

/-- C6 (underflow witness): polling a `Reader` body with declared length 1
whose source yields a 2-byte chunk performs the unchecked `usize`
subtraction `1 - 2`, which underflows (a panic under debug assertions,
a wrap in release) instead of flooring at zero. -/
theorem reader_poll_length_underflow :
    pollNext (Body.from_reader [[0, 0]] (some 1)) = none := by
  rfl

/-- C3: a chunk-sequence body yielding a single chunk `c` converts to `c`
itself with zero copies (the explicit single-chunk optimization), and one
yielding `c1, c2, ..., cn` (`n ≥ 2`) converts to their exact concatenation
in arrival order. -/
theorem stream_into_bytes_single_and_concat :
    (∀ (fuel : Nat) (c : Chunk),
      Body.into_bytes fuel (Body.from_stream [.chunk c]) = some (.ok (c, 0))) ∧
    (∀ (fuel : Nat) (c1 c2 : Chunk) (cs : List Chunk),
      Body.into_bytes fuel
          (Body.from_stream ((c1 :: c2 :: cs).map StreamItem.chunk)) =
        some (.ok ((c1 :: c2 :: cs).flatten, cs.length + 2))) := by
  constructor
  · intro fuel c
    simp [Body.into_bytes, Body.from_stream, intoBytesStream, tryNext]
  · intro fuel c1 c2 cs
    simp [Body.into_bytes, Body.from_stream, intoBytesStream, tryNext,
      drainAppend_map_chunk, List.flatten_cons, List.append_assoc]
    ring

/-- C4: on a non-frozen body, `take()` succeeds, returning the held value
and leaving the frozen sentinel behind; afterwards every `take()` or
`swap()` on that handle fails with the body-consumed condition, and the
failed call leaves the states of all operands untouched. -/
theorem take_succeeds_once_then_frozen (b : Body) (h : b.is_frozen = false) :
    Body.take b = (.ok b, Body.frozen) ∧
      Body.take Body.frozen = (.error .bodyFrozen, Body.frozen) ∧
      ∀ o : Body, Body.swap Body.frozen o = (.error .bodyFrozen, Body.frozen, o) := by
  refine ⟨?_, rfl, fun o => rfl⟩
  simp [Body.take, h]

/-- Witness for C4 at the concrete fresh body `Body.empty`. -/
theorem take_succeeds_once_then_frozen_witness :
    Body.take Body.empty = (.ok Body.empty, Body.frozen) ∧
      Body.take Body.frozen = (.error .bodyFrozen, Body.frozen) ∧
      Body.swap Body.frozen Body.empty = (.error .bodyFrozen, Body.frozen, Body.empty) := by
  have h := take_succeeds_once_then_frozen Body.empty rfl
  exact ⟨h.1, h.2.1, h.2.2 Body.empty⟩

/-- C5 (counterexample): after a frozen body has yielded its first failure
item, the second poll yields ANOTHER failure item, not end-of-stream as the
claim states. -/
theorem frozen_second_poll_not_end :
    (pollNextN 1 Body.frozen).map Prod.fst = some (some (.error .bodyFrozen)) ∧
      (pollNextN 1 Body.frozen).map Prod.fst ≠ some none := by
  refine ⟨rfl, ?_⟩
  intro h
  simp [pollNextN, pollNext, Body.frozen] at h

/-- C5 (amended): polling a frozen body yields a failure item carrying the
already-consumed condition on EVERY poll — the state never changes and the
stream never reaches end. -/
theorem frozen_poll_always_fails (n : Nat) :
    pollNextN n Body.frozen = some (some (.error .bodyFrozen), Body.frozen) := by
  induction n with
  | zero => rfl
  | succ n ih => simpa [pollNextN, pollNext, Body.frozen] using ih

/-- C7: the reader adapter over a chunk-sequence body (a) issues zero polls
and leaves its state untouched once the stream reference has been dropped,
(b) drops the stream reference the moment the sequence signals completion
(even after skipping any number of empty chunks), and (c) skips an empty
chunk without yielding it, merely recursing on the rest. -/
theorem adapter_never_polls_after_completion :
    (∀ buf : Chunk, poll_data none buf = ⟨.ok (), none, buf, 0⟩) ∧
    (∀ k : Nat,
      poll_data (some (List.replicate k (.chunk []))) [] = ⟨.ok (), none, [], k + 1⟩) ∧
    (∀ rest : List StreamItem,
      poll_data (some (.chunk [] :: rest)) [] =
        ⟨(pollDataAux rest).result, (pollDataAux rest).stream,
          (pollDataAux rest).buf, (pollDataAux rest).polls + 1⟩) := by
  refine ⟨fun buf => rfl, ?_, fun rest => by simp [poll_data, pollDataAux]⟩
  intro k
  show poll_data (some (List.replicate k (.chunk []))) [] = ⟨.ok (), none, [], k + 1⟩
  have aux : ∀ m : Nat,
      pollDataAux (List.replicate m (.chunk [])) = ⟨.ok (), none, [], m + 1⟩ := by
    intro m
    induction m with
    | zero => rfl
    | succ m ih => simp [List.replicate_succ, pollDataAux, ih]
  simpa [poll_data] using aux k

/-- C2: in a chain `[A, B]` with terminal endpoint `E`, the request phase
runs A's pre-logic, then B's pre-logic, then the endpoint, and the response
unwinds through B's post-logic then A's post-logic; a middleware that
answers without invoking its continuation yields a result independent of
every later middleware and of the endpoint, so none of them ever runs. -/
theorem middleware_chain_onion_order :
    (∀ (a b : String) (ep : Endpoint) (t : Trace),
      App.run ⟨[markerMiddleware a, markerMiddleware b], ep⟩ t =
        ((ep (t ++ [a ++ ".pre", b ++ ".pre"])).1 ++ [b ++ ".post", a ++ ".post"],
          (ep (t ++ [a ++ ".pre", b ++ ".pre"])).2)) ∧
    (∀ (resp : Response) (rest : List Middleware) (ep : Endpoint) (t : Trace),
      App.run ⟨shortCircuitMiddleware resp :: rest, ep⟩ t = (t, .ok resp)) := by
  constructor
  · intro a b ep t
    simp [App.run, Next.run, markerMiddleware, List.append_assoc]
  · intro resp rest ep t
    rfl

/-- C10: the unit type as a middleware short-circuits: whatever the rest of
the chain and the endpoint are, the result is `Ok(Response::empty())` with
the request untouched — a response with status 200 and an empty body —
and neither the later middleware nor the endpoint is ever consulted. -/
theorem unit_middleware_short_circuits_empty_200 :
    (∀ (rest : List Middleware) (ep : Endpoint) (t : Trace),
      App.run ⟨unitMiddleware :: rest, ep⟩ t = (t, .ok Response.empty)) ∧
      Response.empty.status = 200 ∧ Response.empty.body = Body.empty := by
  exact ⟨fun rest ep t => rfl, rfl, rfl⟩

end HttpKit
